import Mathlib

/-!
# Verification of the `eventbus` package of hongliu9527/go-tools

Shallow embedding of `eventbus` (the topic-based publish/subscribe dispatcher
in the repository) and proofs of the specified properties.

Modelling conventions:
* `reflect` values are abstracted: a Go runtime type is a `GoType` identity, a
  concrete value is a `Val` (its dynamic type plus a payload), and a function
  value is a `FuncVal` carrying its reflect type (`FuncType`), its entry-point
  pointer (`ptr`, the result of `reflect.Value.Pointer`) and its behavior
  (`body`, what `reflect.Value.Call` does, which may panic).
* The handler registry `map[string][]*eventHandler` is an association list
  `HandlerMap` with `mapLookup` / `mapInsert` mirroring Go map read / write
  (a Go write `m[k] = v` overwrites in place or creates the key).
* Goroutine launches are recorded as explicit trace components: `Publish`
  returns the list of `(handler, args)` invocation tasks it schedules, and
  `PublishWithReply` returns them in the `launched` field of its result.
* The `select` race between the reply channel and the timer is resolved by a
  scheduling oracle `fast : Bool`: `fast = true` means the send on `done`
  wins the race, which is only possible when the task actually sends (a task
  whose recovered panic dropped the reply never sends, so the timer always
  wins there).
* A panic is modelled as `none` / `CallResult.panicked` at the point where the
  Go code would raise it.
-/

namespace eventbus

/-- A Go runtime type, identified abstractly. -/
structure GoType where
  tid : Nat
deriving DecidableEq, Repr

/-- A concrete (non-nil) Go value: its dynamic type and a payload. -/
structure Val where
  ty : GoType
  payload : Nat
deriving DecidableEq, Repr

/-- `reflect.New(t).Elem()`: the zero value of type `t`. -/
def zeroVal (t : GoType) : Val := ⟨t, 0⟩

/-- An `interface\x7b\x7d` argument as passed to the publish operations:
the nil marker or a concrete value. -/
inductive Arg where
  | nil : Arg
  | val : Val → Arg
deriving DecidableEq, Repr

/-- The reflect type of a Go function: its parameter types (`In i`) and its
result types (`Out i`). Equality of `FuncType` is Go type identity. -/
structure FuncType where
  params : List GoType
  results : List GoType
deriving DecidableEq, Repr

/-- `t.In i`: the type of parameter `i`; `none` models the panic raised by
`reflect.Type.In` when `i ≥ NumIn`. -/
def FuncType.In (t : FuncType) (i : Nat) : Option GoType := t.params[i]?

/-- Result of `reflect.Value.Call`: a list of result values, or a runtime
panic carrying its message. -/
inductive CallResult where
  | ok : List Val → CallResult
  | panicked : String → CallResult

/-- A Go function value: reflect type, entry-point pointer
(`reflect.Value.Pointer`), and behavior (`reflect.Value.Call`). -/
structure FuncVal where
  typ : FuncType
  ptr : Nat
  body : List Val → CallResult

/-- `reflect.Value.Call` on a function value. -/
def FuncVal.call (f : FuncVal) (args : List Val) : CallResult := f.body args

/-- A non-nil value of static type `interface\x7b\x7d` handed to `Subscribe`:
either a function value, or a non-function value remembered with the string
form of its reflect `Kind` (which is what the error message prints). -/
inductive RValue where
  | func : FuncVal → RValue
  | nonFunc : String → RValue

/-- `eventHandler` wraps the registered callable. The per-handler mutex of
the source is not modelled: the dispatch paths never lock it. -/
structure eventHandler where
  callBack : FuncVal

/-- Structured counterparts of the `fmt.Errorf` errors produced by the bus. -/
inductive BusError where
  | notInvocable : String → BusError
  | unknownTopic : String → BusError
  | handlerCountMismatch : String → Nat → BusError
  | timeout : String → BusError

/-- The handler registry `map[string][]*eventHandler` as an association
list. -/
abbrev HandlerMap := List (String × List eventHandler)

/-- Go map read `m[k]`: `some v` together with `ok = true`, or `none`. -/
def mapLookup : HandlerMap → String → Option (List eventHandler)
  | [], _ => none
  | (k, v) :: rest, t => if k = t then some v else mapLookup rest t

/-- Go map write `m[k] = v`: overwrite the existing entry or create one. -/
def mapInsert : HandlerMap → String → List eventHandler → HandlerMap
  | [], t, hs => [(t, hs)]
  | (k, v) :: rest, t, hs =>
      if k = t then (t, hs) :: rest else (k, v) :: mapInsert rest t hs

/-- `EventBus`: the box for handlers. The `sync.RWMutex` is not modelled;
operations are interpreted atomically. -/
structure EventBus where
  handlers : HandlerMap

/-- `New`: an `EventBus` with empty handlers. -/
def New : EventBus := ⟨[]⟩

/-- `doSubscribe`: rejects a non-function `fn` with the
"is not of type reflect.Func" error, otherwise appends `handler` to the
topic's slice (`bus.handlers[topic] = append(bus.handlers[topic], handler)`;
the read of a missing key yields the empty slice and the write creates the
key). -/
def doSubscribe (bus : EventBus) (topic : String) (fn : RValue)
    (handler : eventHandler) : EventBus × Option BusError :=
  match fn with
  | .nonFunc kind => (bus, some (.notInvocable kind))
  | .func _ =>
      (⟨mapInsert bus.handlers topic
          ((mapLookup bus.handlers topic).getD [] ++ [handler])⟩, none)

/-- `reflect.ValueOf fn` wrapped as an `eventHandler`. A non-function value
contributes a placeholder wrapper: `doSubscribe` rejects the subscription
before the wrapper is ever used, so its content is irrelevant. -/
def RValue.asHandler : RValue → eventHandler
  | .func f => ⟨f⟩
  | .nonFunc _ => ⟨⟨⟨[], []⟩, 0, fun _ => .ok []⟩⟩

/-- `Subscribe`: subscribes `fn` to a topic via `doSubscribe`. -/
def Subscribe (bus : EventBus) (topic : String) (fn : RValue) :
    EventBus × Option BusError :=
  doSubscribe bus topic fn fn.asHandler

/-- `HasCallback`: true if the topic key exists and its slice is
non-empty. -/
def HasCallback (bus : EventBus) (topic : String) : Bool :=
  match mapLookup bus.handlers topic with
  | some hs => decide (0 < hs.length)
  | none => false

/-- The scan inside `findHandlerIdx`: first index whose handler has the same
reflect type and the same entry-point pointer as `callback`, else `-1`. -/
def findHandlerIdxAux (callback : FuncVal) : List eventHandler → Nat → Int
  | [], _ => -1
  | h :: rest, idx =>
      if h.callBack.typ = callback.typ ∧ h.callBack.ptr = callback.ptr then
        (idx : Int)
      else findHandlerIdxAux callback rest (idx + 1)

/-- `findHandlerIdx`: index of the first handler of `topic` matching
`callback` by type and pointer, `-1` if the topic is absent or no handler
matches. -/
def findHandlerIdx (bus : EventBus) (topic : String) (callback : FuncVal) :
    Int :=
  match mapLookup bus.handlers topic with
  | some hs => findHandlerIdxAux callback hs 0
  | none => -1

/-- `removeHandler`: if the topic exists and `0 ≤ idx < len`, delete the
element at `idx` preserving the order of the rest (the source's
`copy` + truncate); otherwise leave the bus unchanged. -/
def removeHandler (bus : EventBus) (topic : String) (idx : Int) : EventBus :=
  match mapLookup bus.handlers topic with
  | none => bus
  | some hs =>
      if 0 ≤ idx ∧ idx < (hs.length : Int) then
        ⟨mapInsert bus.handlers topic (hs.eraseIdx idx.toNat)⟩
      else bus

/-- `Unsubscribe`: if the topic key exists with a non-empty slice, remove the
handler found by `findHandlerIdx` (a no-op when it returns `-1`) and succeed;
otherwise fail with the "topic doesn't exist" error. -/
def Unsubscribe (bus : EventBus) (topic : String) (handler : FuncVal) :
    EventBus × Option BusError :=
  match mapLookup bus.handlers topic with
  | some hs =>
      if 0 < hs.length then
        (removeHandler bus topic (findHandlerIdx bus topic handler), none)
      else (bus, some (.unknownTopic topic))
  | none => (bus, some (.unknownTopic topic))

/-- The loop body of `setUpPublish`, carried out from position `i`: a nil
argument at position `i` becomes `reflect.New(funcType.In(i)).Elem()` — the
zero value of parameter type `In i`, with `none` modelling the panic of
`In i` when `i ≥ NumIn` — and a non-nil argument is passed through as
`reflect.ValueOf v`. -/
def setUpPublishAux (funcType : FuncType) : List Arg → Nat → Option (List Val)
  | [], _ => some []
  | Arg.nil :: rest, i =>
      match funcType.In i with
      | none => none
      | some t =>
          match setUpPublishAux funcType rest (i + 1) with
          | none => none
          | some tail => some (zeroVal t :: tail)
  | Arg.val v :: rest, i =>
      match setUpPublishAux funcType rest (i + 1) with
      | none => none
      | some tail => some (v :: tail)

/-- `setUpPublish`: builds `passedArguments` positionally from `args`;
`none` models the panic raised inside the loop when a nil argument sits at a
position with no declared parameter. -/
def setUpPublish (callback : eventHandler) (args : List Arg) :
    Option (List Val) :=
  setUpPublishAux callback.callBack.typ args 0

/-- Outcome of one fire-and-forget invocation goroutine. -/
inductive TaskResult where
  | returned : List Val → TaskResult
  | crashed : TaskResult

/-- `doPublish`: one fire-and-forget invocation,
`handler.callBack.Call(bus.setUpPublish(handler, args...))`. A panic in
either step is unrecovered and crashes the goroutine. -/
def doPublish (handler : eventHandler) (args : List Arg) : TaskResult :=
  match setUpPublish handler args with
  | none => .crashed
  | some passed =>
      match handler.callBack.call passed with
      | .ok rs => .returned rs
      | .panicked _ => .crashed

/-- `Publish`: under the read lock, if the topic has at least one handler,
copy the slice and launch `go bus.doPublish(handler, topic, args...)` for
each copied handler in order. The returned list is the launch trace: the
invocation tasks scheduled, in scheduling order. The registry is not
written. -/
def Publish (bus : EventBus) (topic : String) (args : List Arg) :
    List (eventHandler × List Arg) :=
  match mapLookup bus.handlers topic with
  | some handlers =>
      if 0 < handlers.length then handlers.map (fun h => (h, args)) else []
  | none => []

/-- The body of the reply goroutine of `PublishWithReply`: compute
`setUpPublish`, then `Call`, and send the result list on `done`. The deferred
`recover` turns any panic (an out-of-range nil in `setUpPublish`, or a panic
inside the callable) into a printed diagnostic; `none` models that case, in
which nothing is ever sent on `done`. -/
def replyTask (handler : eventHandler) (args : List Arg) :
    Option (List Val) :=
  match setUpPublish handler args with
  | none => none
  | some passed =>
      match handler.callBack.call passed with
      | .ok resultList => some resultList
      | .panicked _ => none

/-- Result of `PublishWithReply`: the `(interface\x7b\x7d, error)` pair of
the source, plus the launch trace of invocation goroutines started by the
call. -/
structure ReplyResult where
  value : Option Val
  error : Option BusError
  launched : List (eventHandler × List Arg)

/-- `PublishWithReply`: errors out on an unregistered topic or a handler
count different from 1; otherwise launches the reply goroutine on the single
handler (`copyHandlers[0]`) and races `done` against the timer. `fast` is the
scheduling oracle for the `select`: `true` when the send on `done` wins the
race, which requires the task to actually send (`replyTask ≠ none`). On a
reply of exactly one value that value is returned with no error; on any
other reply arity no value and no error; when the timer wins, the timeout
error. -/
def PublishWithReply (bus : EventBus) (topic : String) (fast : Bool)
    (args : List Arg) : ReplyResult :=
  match mapLookup bus.handlers topic with
  | none => ⟨none, some (.unknownTopic topic), []⟩
  | some handlers =>
      let handlerNum := handlers.length
      if handlerNum ≠ 1 then
        ⟨none, some (.handlerCountMismatch topic handlerNum), []⟩
      else
        match handlers.head? with
        | none => ⟨none, some (.handlerCountMismatch topic handlerNum), []⟩
        | some handler =>
            match replyTask handler args, fast with
            | some resultList, true =>
                if resultList.length = 1 then
                  ⟨resultList.head?, none, [(handler, args)]⟩
                else ⟨none, none, [(handler, args)]⟩
            | some _, false => ⟨none, some (.timeout topic), [(handler, args)]⟩
            | none, _ => ⟨none, some (.timeout topic), [(handler, args)]⟩

/-- One public operation of the bus API. -/
inductive BusOp where
  | subscribeOp : String → RValue → BusOp
  | unsubscribeOp : String → FuncVal → BusOp
  | hasCallbackOp : String → BusOp
  | publishOp : String → List Arg → BusOp
  | publishWithReplyOp : String → Bool → List Arg → BusOp

/-- The registry state after one public bus operation. Only `Subscribe` and
`Unsubscribe` write the handler map; `HasCallback`, `Publish` and
`PublishWithReply` only read it. -/
def stepBus (bus : EventBus) : BusOp → EventBus
  | .subscribeOp t fn => (Subscribe bus t fn).1
  | .unsubscribeOp t r => (Unsubscribe bus t r).1
  | .hasCallbackOp _ => bus
  | .publishOp _ _ => bus
  | .publishWithReplyOp _ _ _ => bus

/-- The matching criterion of `findHandlerIdx`: same declared type signature
and same entry-point pointer. -/
def handlerMatch (h : eventHandler) (r : FuncVal) : Prop :=
  h.callBack.typ = r.typ ∧ h.callBack.ptr = r.ptr

instance (h : eventHandler) (r : FuncVal) : Decidable (handlerMatch h r) :=
  inferInstanceAs (Decidable (_ ∧ _))

/-! ### Sample values used by the witnesses -/

/-- A sample runtime type. -/
def tInt : GoType := ⟨0⟩

/-- A second sample runtime type. -/
def tStr : GoType := ⟨1⟩

/-- Sample handler: one `tInt` parameter, one result, adds one to the
payload. -/
def fAdd1 : FuncVal :=
  ⟨⟨[tInt], [tInt]⟩, 1,
   fun vs => .ok [⟨tInt, (vs.headD (zeroVal tInt)).payload + 1⟩]⟩

/-- Sample handler with the same signature as `fAdd1` but another entry
point. -/
def fId : FuncVal := ⟨⟨[tInt], [tInt]⟩, 2, fun vs => .ok vs⟩

/-- Sample handler with two parameters and no result. -/
def fTwo : FuncVal := ⟨⟨[tInt, tStr], []⟩, 3, fun _ => .ok []⟩

/-- Sample handler whose body panics. -/
def fBoom : FuncVal := ⟨⟨[tInt], [tInt]⟩, 4, fun _ => .panicked "boom"⟩

/-! ### Helper lemmas -/

theorem mapLookup_mapInsert (m : HandlerMap) (k t : String)
    (v : List eventHandler) :
    mapLookup (mapInsert m k v) t = if k = t then some v else mapLookup m t := by
  induction m with
  | nil => simp [mapInsert, mapLookup]
  | cons p rest ih =>
      obtain ⟨k1, v1⟩ := p
      by_cases hk : k1 = k
      · subst hk
        by_cases ht : k1 = t <;> simp [mapInsert, mapLookup, ht]
      · by_cases ht : k1 = t
        · subst ht
          have hkt : ¬ k = k1 := fun h => hk h.symm
          simp [mapInsert, mapLookup, hk, hkt]
        · simp [mapInsert, mapLookup, hk, ht, ih]

theorem mapLookup_isSome_mapInsert (m : HandlerMap) (k t : String)
    (v : List eventHandler) (h : (mapLookup m t).isSome = true) :
    (mapLookup (mapInsert m k v) t).isSome = true := by
  rw [mapLookup_mapInsert]
  by_cases hk : k = t <;> simp [hk, h]

theorem findHandlerIdxAux_no_match (r : FuncVal) (hs : List eventHandler)
    (hno : ∀ h ∈ hs, ¬ handlerMatch h r) :
    ∀ i, findHandlerIdxAux r hs i = -1 := by
  induction hs with
  | nil => intro i; rfl
  | cons h rest ih =>
      intro i
      have hh : ¬ handlerMatch h r := hno h (by simp)
      have hrest : ∀ h2 ∈ rest, ¬ handlerMatch h2 r := by
        intro h2 hm; exact hno h2 (by simp [hm])
      simp only [handlerMatch] at hh
      simp only [findHandlerIdxAux]
      rw [if_neg hh]
      exact ih hrest (i + 1)

theorem findHandlerIdxAux_first_match (r : FuncVal) :
    ∀ (hs : List eventHandler) (i : Nat) (h : eventHandler),
      hs[i]? = some h → handlerMatch h r →
      (∀ j hj, j < i → hs[j]? = some hj → ¬ handlerMatch hj r) →
      ∀ k, findHandlerIdxAux r hs k = (k + i : Nat) := by
  intro hs
  induction hs with
  | nil => intro i h hget; simp at hget
  | cons h0 rest ih =>
      intro i h hget hmatch hfirst k
      cases i with
      | zero =>
          simp only [List.getElem?_cons_zero, Option.some.injEq] at hget
          subst hget
          simp only [handlerMatch] at hmatch
          simp only [findHandlerIdxAux]
          rw [if_pos hmatch]
          simp
      | succ i2 =>
          have h0no : ¬ handlerMatch h0 r := by
            exact hfirst 0 h0 (Nat.succ_pos i2) (by simp)
          simp only [List.getElem?_cons_succ] at hget
          have hfirst2 : ∀ j hj, j < i2 → rest[j]? = some hj →
              ¬ handlerMatch hj r := by
            intro j hj hlt hg
            exact hfirst (j + 1) hj (Nat.succ_lt_succ hlt) (by simpa using hg)
          simp only [handlerMatch] at h0no
          simp only [findHandlerIdxAux]
          rw [if_neg h0no]
          have := ih i2 h hget hmatch hfirst2 (k + 1)
          rw [this]
          omega

theorem setUpPublishAux_eq_none (t : FuncType) :
    ∀ (args : List Arg) (i : Nat),
      setUpPublishAux t args i = none ↔
        ∃ j, args[j]? = some Arg.nil ∧ t.params.length ≤ i + j := by
  intro args
  induction args with
  | nil =>
      intro i
      simp [setUpPublishAux]
  | cons a rest ih =>
      intro i
      cases a with
      | nil =>
          simp only [setUpPublishAux]
          cases hin : t.In i with
          | none =>
              simp only [FuncType.In] at hin
              have hlen : t.params.length ≤ i := by
                by_contra hc
                rw [List.getElem?_eq_getElem (by omega)] at hin
                exact Option.noConfusion hin
              constructor
              · intro _
                exact ⟨0, by simp, by simpa using hlen⟩
              · intro _
                rfl
          | some pt =>
              have hlt : i < t.params.length := by
                simp only [FuncType.In] at hin
                by_contra hc
                rw [List.getElem?_eq_none (by omega)] at hin
                exact Option.noConfusion hin
              constructor
              · intro hnone
                cases hrec : setUpPublishAux t rest (i + 1) with
                | none =>
                    obtain ⟨j, hj, hlj⟩ := (ih (i + 1)).mp hrec
                    exact ⟨j + 1, by simpa using hj, by omega⟩
                | some tail =>
                    rw [hrec] at hnone
                    exact Option.noConfusion hnone
              · rintro ⟨j, hj, hlj⟩
                cases j with
                | zero =>
                    simp at hj
                    omega
                | succ j2 =>
                    simp only [List.getElem?_cons_succ] at hj
                    have hrec : setUpPublishAux t rest (i + 1) = none :=
                      (ih (i + 1)).mpr ⟨j2, hj, by omega⟩
                    rw [hrec]
      | val v =>
          simp only [setUpPublishAux]
          constructor
          · intro hnone
            cases hrec : setUpPublishAux t rest (i + 1) with
            | none =>
                obtain ⟨j, hj, hlj⟩ := (ih (i + 1)).mp hrec
                exact ⟨j + 1, by simpa using hj, by omega⟩
            | some tail =>
                rw [hrec] at hnone
                exact Option.noConfusion hnone
          · rintro ⟨j, hj, hlj⟩
            cases j with
            | zero =>
                simp at hj
            | succ j2 =>
                simp only [List.getElem?_cons_succ] at hj
                have hrec : setUpPublishAux t rest (i + 1) = none :=
                  (ih (i + 1)).mpr ⟨j2, hj, by omega⟩
                rw [hrec]

theorem setUpPublishAux_some_spec (t : FuncType) :
    ∀ (args : List Arg) (i : Nat) (passed : List Val),
      setUpPublishAux t args i = some passed →
      passed.length = args.length ∧
      ∀ j,
        (∀ v, args[j]? = some (Arg.val v) → passed[j]? = some v) ∧
        (args[j]? = some Arg.nil →
          ∃ pt, t.In (i + j) = some pt ∧ passed[j]? = some (zeroVal pt)) := by
  intro args
  induction args with
  | nil =>
      intro i passed hp
      simp only [setUpPublishAux, Option.some.injEq] at hp
      subst hp
      refine ⟨rfl, fun j => ⟨fun v hv => by simp at hv, fun hv => by simp at hv⟩⟩
  | cons a rest ih =>
      intro i passed hp
      cases a with
      | nil =>
          simp only [setUpPublishAux] at hp
          cases hin : t.In i with
          | none =>
              rw [hin] at hp
              exact Option.noConfusion hp
          | some pt =>
              rw [hin] at hp
              cases hrec : setUpPublishAux t rest (i + 1) with
              | none =>
                  rw [hrec] at hp
                  exact Option.noConfusion hp
              | some tail =>
                  rw [hrec] at hp
                  simp only [Option.some.injEq] at hp
                  subst hp
                  obtain ⟨hlen, hget⟩ := ih (i + 1) tail hrec
                  refine ⟨by simp [hlen], fun j => ?_⟩
                  cases j with
                  | zero =>
                      refine ⟨fun v hv => by simp at hv, fun _ => ?_⟩
                      exact ⟨pt, by simpa using hin, by simp⟩
                  | succ j2 =>
                      obtain ⟨hval, hnil⟩ := hget j2
                      refine ⟨fun v hv => ?_, fun hv => ?_⟩
                      · simp only [List.getElem?_cons_succ] at hv ⊢
                        exact hval v hv
                      · simp only [List.getElem?_cons_succ] at hv ⊢
                        obtain ⟨pt2, hpt2, hp2⟩ := hnil hv
                        exact ⟨pt2, by rw [show i + (j2 + 1) = i + 1 + j2 by omega]; exact hpt2, hp2⟩
      | val v0 =>
          simp only [setUpPublishAux] at hp
          cases hrec : setUpPublishAux t rest (i + 1) with
          | none =>
              rw [hrec] at hp
              exact Option.noConfusion hp
          | some tail =>
              rw [hrec] at hp
              simp only [Option.some.injEq] at hp
              subst hp
              obtain ⟨hlen, hget⟩ := ih (i + 1) tail hrec
              refine ⟨by simp [hlen], fun j => ?_⟩
              cases j with
              | zero =>
                  refine ⟨fun v hv => ?_, fun hv => by simp at hv⟩
                  simp only [List.getElem?_cons_zero, Option.some.injEq,
                    Arg.val.injEq] at hv
                  subst hv
                  simp
              | succ j2 =>
                  obtain ⟨hval, hnil⟩ := hget j2
                  refine ⟨fun v hv => ?_, fun hv => ?_⟩
                  · simp only [List.getElem?_cons_succ] at hv ⊢
                    exact hval v hv
                  · simp only [List.getElem?_cons_succ] at hv ⊢
                    obtain ⟨pt2, hpt2, hp2⟩ := hnil hv
                    exact ⟨pt2, by rw [show i + (j2 + 1) = i + 1 + j2 by omega]; exact hpt2, hp2⟩

/-- Sample bus: one topic with a single handler. -/
def busA : EventBus := ⟨[("calc", [⟨fAdd1⟩])]⟩

/-- Sample bus: one topic with two handlers. -/
def busB : EventBus := ⟨[("two", [⟨fAdd1⟩, ⟨fId⟩])]⟩

/-! ### Claim theorems -/

/-- C1: for every bus state and topic `T`, `PublishWithReply` returns the
unknown-topic error when `T` has no entry in the handler map, and the
handler-count-mismatch error (carrying the topic name and the actual count)
when the entry exists with a handler count different from 1; in both cases
no invocation goroutine is launched (the launch trace is empty, so no
handler is invoked) and the result does not depend on the scheduling oracle
(the error is returned without waiting for the timeout). -/
theorem C1_publishWithReply_errors (bus : EventBus) (T : String) (fast : Bool)
    (args : List Arg) :
    (mapLookup bus.handlers T = none →
      PublishWithReply bus T fast args =
        ⟨none, some (.unknownTopic T), []⟩) ∧
    (∀ hs, mapLookup bus.handlers T = some hs → hs.length ≠ 1 →
      PublishWithReply bus T fast args =
        ⟨none, some (.handlerCountMismatch T hs.length), []⟩) := by
  constructor
  · intro h
    simp [PublishWithReply, h]
  · intro hs h hlen
    simp [PublishWithReply, h, hlen]

/-- Witness for C1 at concrete inputs: a missing topic and a topic with two
handlers. -/
theorem C1_publishWithReply_errors_witness :
    PublishWithReply busB "missing" true [] =
      ⟨none, some (.unknownTopic "missing"), []⟩ ∧
    PublishWithReply busB "two" false [] =
      ⟨none, some (.handlerCountMismatch "two" 2), []⟩ := by
  constructor
  · exact (C1_publishWithReply_errors busB "missing" true []).1 rfl
  · exact (C1_publishWithReply_errors busB "two" false []).2
      [⟨fAdd1⟩, ⟨fId⟩] rfl (by decide)

/-- C2: for a topic with exactly one handler, when the handler invocation
completes before the timeout (the task sends its result list `rs` and the
send wins the race), `PublishWithReply` returns the single element of `rs`
with no error when `rs` has exactly one element, and no value with no error
when `rs` has zero or at least two elements. -/
theorem C2_publishWithReply_success (bus : EventBus) (T : String)
    (h : eventHandler) (args : List Arg) (rs : List Val)
    (hlook : mapLookup bus.handlers T = some [h])
    (htask : replyTask h args = some rs) :
    (rs.length = 1 →
      PublishWithReply bus T true args = ⟨rs.head?, none, [(h, args)]⟩) ∧
    (rs.length ≠ 1 →
      PublishWithReply bus T true args = ⟨none, none, [(h, args)]⟩) := by
  constructor <;> intro hlen <;>
    simp [PublishWithReply, hlook, htask, hlen]

/-- Witness for C2 at a concrete input: the add-one handler applied to
payload 41 replies 42, and that reply is returned with no error. -/
theorem C2_publishWithReply_success_witness :
    replyTask ⟨fAdd1⟩ [Arg.val ⟨tInt, 41⟩] = some [⟨tInt, 42⟩] ∧
    PublishWithReply busA "calc" true [Arg.val ⟨tInt, 41⟩] =
      ⟨some ⟨tInt, 42⟩, none, [(⟨fAdd1⟩, [Arg.val ⟨tInt, 41⟩])]⟩ := by
  refine ⟨rfl, ?_⟩
  exact (C2_publishWithReply_success busA "calc" ⟨fAdd1⟩
    [Arg.val ⟨tInt, 41⟩] [⟨tInt, 42⟩] rfl rfl).1 rfl

/-- C4: `Subscribe` fails with the not-invocable error exactly when the
subscribed value is not a function, leaving the whole bus unchanged; on a
function value it succeeds and appends exactly one new handler at the end of
the topic's sequence, creating the sequence if absent (the read of a missing
key defaults to the empty sequence) and leaving every other topic unchanged;
no duplicate detection is performed (the append is unconditional). -/
theorem C4_subscribe_spec (bus : EventBus) (T : String) :
    (∀ k, Subscribe bus T (.nonFunc k) = (bus, some (.notInvocable k))) ∧
    (∀ f,
      (Subscribe bus T (.func f)).2 = none ∧
      mapLookup (Subscribe bus T (.func f)).1.handlers T =
        some ((mapLookup bus.handlers T).getD [] ++ [⟨f⟩]) ∧
      (∀ t, t ≠ T →
        mapLookup (Subscribe bus T (.func f)).1.handlers t =
          mapLookup bus.handlers t)) := by
  constructor
  · intro k
    rfl
  · intro f
    refine ⟨rfl, ?_, ?_⟩
    · simp [Subscribe, doSubscribe, RValue.asHandler, mapLookup_mapInsert]
    · intro t ht
      simp only [Subscribe, doSubscribe, RValue.asHandler,
        mapLookup_mapInsert]
      rw [if_neg (fun hTt => ht hTt.symm)]

/-- Witness for C4 at concrete inputs: a non-function subscription is
rejected without change, a function subscription appends to the existing
sequence of its topic and leaves another topic alone. -/
theorem C4_subscribe_spec_witness :
    Subscribe busA "calc" (.nonFunc "int") =
      (busA, some (.notInvocable "int")) ∧
    (Subscribe busA "calc" (.func fId)).2 = none ∧
    mapLookup (Subscribe busA "calc" (.func fId)).1.handlers "calc" =
      some [⟨fAdd1⟩, ⟨fId⟩] ∧
    mapLookup (Subscribe busA "calc" (.func fId)).1.handlers "other" =
      none := by
  refine ⟨(C4_subscribe_spec busA "calc").1 "int",
    ((C4_subscribe_spec busA "calc").2 fId).1, ?_, ?_⟩
  · exact ((C4_subscribe_spec busA "calc").2 fId).2.1
  · exact ((C4_subscribe_spec busA "calc").2 fId).2.2 "other" (by decide)

/-- Sample bus: a topic with one handler and a known topic whose sequence
has become empty. -/
def busC : EventBus := ⟨[("a", [⟨fAdd1⟩]), ("e", [])]⟩

theorem removeHandler_isSome (bus : EventBus) (T : String) (idx : Int)
    (t : String) (h : (mapLookup bus.handlers t).isSome = true) :
    (mapLookup (removeHandler bus T idx).handlers t).isSome = true := by
  unfold removeHandler
  cases hl : mapLookup bus.handlers T with
  | none => exact h
  | some hs =>
      simp only []
      by_cases hr : 0 ≤ idx ∧ idx < (hs.length : Int)
      · rw [if_pos hr]
        exact mapLookup_isSome_mapInsert _ _ _ _ h
      · rw [if_neg hr]
        exact h

theorem unsubscribe_fst_isSome (bus : EventBus) (T : String) (r : FuncVal)
    (t : String) (h : (mapLookup bus.handlers t).isSome = true) :
    (mapLookup (Unsubscribe bus T r).1.handlers t).isSome = true := by
  unfold Unsubscribe
  cases hl : mapLookup bus.handlers T with
  | none => exact h
  | some hs =>
      simp only []
      by_cases hlen : 0 < hs.length
      · rw [if_pos hlen]
        exact removeHandler_isSome bus T _ t h
      · rw [if_neg hlen]
        exact h

/-- C3: once a topic key exists in the handler map, no bus operation — nor
any sequence of bus operations — deletes it, even after its handler
sequence becomes empty; and `HasCallback` returns true exactly when the key
exists with a non-empty handler sequence (so it is false for an existing key
with an empty sequence). -/
theorem C3_keys_persistent_and_hasCallback :
    (∀ (bus : EventBus) (op : BusOp) (t : String),
      (mapLookup bus.handlers t).isSome = true →
      (mapLookup (stepBus bus op).handlers t).isSome = true) ∧
    (∀ (bus : EventBus) (ops : List BusOp) (t : String),
      (mapLookup bus.handlers t).isSome = true →
      (mapLookup (ops.foldl stepBus bus).handlers t).isSome = true) ∧
    (∀ (bus : EventBus) (t : String),
      HasCallback bus t = true ↔
        ∃ hs, mapLookup bus.handlers t = some hs ∧ hs ≠ []) := by
  have hstep : ∀ (bus : EventBus) (op : BusOp) (t : String),
      (mapLookup bus.handlers t).isSome = true →
      (mapLookup (stepBus bus op).handlers t).isSome = true := by
    intro bus op t h
    cases op with
    | subscribeOp T fn =>
        cases fn with
        | nonFunc k => exact h
        | func f =>
            simp only [stepBus, Subscribe, doSubscribe, RValue.asHandler]
            exact mapLookup_isSome_mapInsert _ _ _ _ h
    | unsubscribeOp T r => exact unsubscribe_fst_isSome bus T r t h
    | hasCallbackOp T => exact h
    | publishOp T args => exact h
    | publishWithReplyOp T fast args => exact h
  refine ⟨hstep, ?_, ?_⟩
  · intro bus ops
    induction ops generalizing bus with
    | nil => intro t h; exact h
    | cons op rest ih =>
        intro t h
        exact ih (stepBus bus op) t (hstep bus op t h)
  · intro bus t
    unfold HasCallback
    cases hl : mapLookup bus.handlers t with
    | none => simp
    | some hs => simp [List.length_pos]

/-- Witness for C3 at a concrete input: unsubscribing the only handler of a
topic empties its sequence but keeps the key, and `HasCallback` holds on a
topic with one handler. -/
theorem C3_keys_persistent_witness :
    (mapLookup
      (stepBus ⟨[("a", [⟨fId⟩])]⟩ (.unsubscribeOp "a" fId)).handlers
      "a").isSome = true ∧
    HasCallback busA "calc" = true := by
  constructor
  · exact C3_keys_persistent_and_hasCallback.1 ⟨[("a", [⟨fId⟩])]⟩
      (.unsubscribeOp "a" fId) "a" rfl
  · exact (C3_keys_persistent_and_hasCallback.2.2 busA "calc").mpr
      ⟨[⟨fAdd1⟩], rfl, List.cons_ne_nil _ _⟩

/-- C5: `Unsubscribe` fails with the unknown-topic error exactly when the
topic key is absent or its handler sequence is empty; in every other case it
returns success, and when no registered handler matches the reference by
type and pointer the registry is left unchanged (silent no-op on
non-match). -/
theorem C5_unsubscribe_errors (bus : EventBus) (T : String) (r : FuncVal) :
    ((Unsubscribe bus T r).2 = some (.unknownTopic T) ↔
      mapLookup bus.handlers T = none ∨ mapLookup bus.handlers T = some []) ∧
    (∀ hs, mapLookup bus.handlers T = some hs → hs ≠ [] →
      (Unsubscribe bus T r).2 = none) ∧
    (∀ hs, mapLookup bus.handlers T = some hs →
      (∀ h ∈ hs, ¬ handlerMatch h r) →
      (Unsubscribe bus T r).1 = bus) := by
  unfold Unsubscribe
  cases hl : mapLookup bus.handlers T with
  | none =>
      refine ⟨by simp, ?_, ?_⟩
      · intro hs h
        exact absurd h (by simp)
      · intro hs h
        exact absurd h (by simp)
  | some hs =>
      simp only []
      by_cases hlen : 0 < hs.length
      · rw [if_pos hlen]
        refine ⟨by simp [List.ne_nil_of_length_pos hlen], ?_, ?_⟩
        · intro _ _ _
          rfl
        · intro hs2 h2 hno
          simp only [Option.some.injEq] at h2
          subst h2
          have hidx : findHandlerIdx bus T r = -1 := by
            unfold findHandlerIdx
            rw [hl]
            exact findHandlerIdxAux_no_match r hs hno 0
          rw [hidx]
          unfold removeHandler
          rw [hl]
          simp only []
          rw [if_neg (by omega)]
      · rw [if_neg hlen]
        have hnil : hs = [] := List.eq_nil_of_length_eq_zero (by omega)
        subst hnil
        refine ⟨by simp, ?_, ?_⟩
        · intro hs2 h2 hne
          simp only [Option.some.injEq] at h2
          exact absurd h2.symm hne
        · intro _ _ _
          rfl

/-- Witness for C5 at concrete inputs: an absent topic and a known topic
with an empty sequence both fail with the unknown-topic error; a non-match
on a populated topic succeeds and leaves the bus unchanged. -/
theorem C5_unsubscribe_errors_witness :
    (Unsubscribe busC "missing" fId).2 = some (.unknownTopic "missing") ∧
    (Unsubscribe busC "e" fId).2 = some (.unknownTopic "e") ∧
    (Unsubscribe busC "a" fId).2 = none ∧
    (Unsubscribe busC "a" fId).1 = busC := by
  refine ⟨?_, ?_, ?_, ?_⟩
  · exact (C5_unsubscribe_errors busC "missing" fId).1.mpr (Or.inl rfl)
  · exact (C5_unsubscribe_errors busC "e" fId).1.mpr (Or.inr rfl)
  · exact (C5_unsubscribe_errors busC "a" fId).2.1 [⟨fAdd1⟩] rfl
      (List.cons_ne_nil _ _)
  · refine (C5_unsubscribe_errors busC "a" fId).2.2 [⟨fAdd1⟩] rfl ?_
    intro h hm
    rw [List.mem_singleton] at hm
    subst hm
    decide

/-- C6: on a topic whose sequence contains a first handler matching the
reference by declared type signature and entry-point pointer at index `i`,
`Unsubscribe` succeeds and removes exactly that element — the sequence
becomes its erasure at `i`, so at most one handler is removed and the
relative order of the remaining handlers is preserved — while every other
topic is untouched. -/
theorem C6_unsubscribe_removes_first_match (bus : EventBus) (T : String)
    (r : FuncVal) (hs : List eventHandler) (i : Nat) (h : eventHandler)
    (hlook : mapLookup bus.handlers T = some hs)
    (hget : hs[i]? = some h)
    (hmatch : handlerMatch h r)
    (hfirst : ∀ j hj, j < i → hs[j]? = some hj → ¬ handlerMatch hj r) :
    (Unsubscribe bus T r).2 = none ∧
    mapLookup (Unsubscribe bus T r).1.handlers T = some (hs.eraseIdx i) ∧
    (∀ t, t ≠ T → mapLookup (Unsubscribe bus T r).1.handlers t =
      mapLookup bus.handlers t) := by
  have hlt : i < hs.length := by
    by_contra hc
    rw [List.getElem?_eq_none (by omega)] at hget
    exact Option.noConfusion hget
  have hidx : findHandlerIdx bus T r = (i : Int) := by
    unfold findHandlerIdx
    rw [hlook]
    simpa using findHandlerIdxAux_first_match r hs i h hget hmatch hfirst 0
  have hlen : 0 < hs.length := by omega
  unfold Unsubscribe
  rw [hlook]
  simp only []
  rw [if_pos hlen, hidx]
  unfold removeHandler
  rw [hlook]
  simp only []
  rw [if_pos (by constructor <;> omega)]
  refine ⟨trivial, ?_, ?_⟩
  · simp [mapLookup_mapInsert]
  · intro t ht
    simp only [mapLookup_mapInsert]
    rw [if_neg (fun hTt => ht hTt.symm)]

/-- Witness for C6 at a concrete input: on a two-handler topic the reference
matches only the second handler (same signature, different pointer), which
is removed; the first handler stays and another topic is unaffected. -/
theorem C6_unsubscribe_removes_witness :
    (Unsubscribe busB "two" fId).2 = none ∧
    mapLookup (Unsubscribe busB "two" fId).1.handlers "two" =
      some [⟨fAdd1⟩] ∧
    mapLookup (Unsubscribe busB "two" fId).1.handlers "calc" =
      mapLookup busB.handlers "calc" := by
  have hfirst : ∀ j hj, j < 1 →
      ([⟨fAdd1⟩, ⟨fId⟩] : List eventHandler)[j]? = some hj →
      ¬ handlerMatch hj fId := by
    intro j hj hlt hg
    have hj0 : j = 0 := by omega
    subst hj0
    simp only [List.getElem?_cons_zero, Option.some.injEq] at hg
    subst hg
    decide
  have hmain := C6_unsubscribe_removes_first_match busB "two" fId
    [⟨fAdd1⟩, ⟨fId⟩] 1 ⟨fId⟩ rfl rfl (by decide) hfirst
  exact ⟨hmain.1, hmain.2.1, hmain.2.2 "calc" (by decide)⟩

/-- Sample bus: a single panicking handler. -/
def busBoom : EventBus := ⟨[("boom", [⟨fBoom⟩])]⟩

/-- C7: on a topic with at least one handler, `Publish` schedules exactly
one independent invocation goroutine per handler of the snapshot, in
registration order (the launch trace is the handler list paired with the
arguments, position by position), returns without mutating the registry and
retains no result; and the launch trace is a function of the topic's entry
at snapshot time alone, so mutation of the live sequence after the snapshot
cannot change the set of handlers invoked by an in-flight publish. -/
theorem C7_publish_snapshot (bus : EventBus) (T : String) (args : List Arg)
    (hs : List eventHandler)
    (hlook : mapLookup bus.handlers T = some hs)
    (hne : 0 < hs.length) :
    Publish bus T args = hs.map (fun h => (h, args)) ∧
    stepBus bus (.publishOp T args) = bus ∧
    (∀ bus2 : EventBus, mapLookup bus2.handlers T = some hs →
      Publish bus2 T args = Publish bus T args) := by
  refine ⟨?_, rfl, ?_⟩
  · simp [Publish, hlook, hne]
  · intro bus2 h2
    simp [Publish, hlook, h2]

/-- Witness for C7 at a concrete input: a two-handler topic schedules both
handlers in order, and a different bus with the same topic entry schedules
the same invocations. -/
theorem C7_publish_snapshot_witness :
    Publish busB "two" [Arg.val ⟨tInt, 3⟩] =
      [(⟨fAdd1⟩, [Arg.val ⟨tInt, 3⟩]), (⟨fId⟩, [Arg.val ⟨tInt, 3⟩])] ∧
    stepBus busB (.publishOp "two" [Arg.val ⟨tInt, 3⟩]) = busB ∧
    Publish ⟨[("x", []), ("two", [⟨fAdd1⟩, ⟨fId⟩])]⟩ "two"
        [Arg.val ⟨tInt, 3⟩] =
      Publish busB "two" [Arg.val ⟨tInt, 3⟩] := by
  have hmain := C7_publish_snapshot busB "two" [Arg.val ⟨tInt, 3⟩]
    [⟨fAdd1⟩, ⟨fId⟩] rfl (by decide)
  exact ⟨hmain.1, hmain.2.1,
    hmain.2.2 ⟨[("x", []), ("two", [⟨fAdd1⟩, ⟨fId⟩])]⟩ rfl⟩

/-- C8: argument binding is positional — when `setUpPublish` succeeds, the
passed list has one entry per supplied argument, a non-nil argument at
position `i` is passed through unchanged to parameter `i`, and a nil
argument at position `i` is replaced by the zero value of parameter `i` of
the callable's declared type. -/
theorem C8_setUpPublish_positional (cb : eventHandler) (args : List Arg)
    (passed : List Val) (hsp : setUpPublish cb args = some passed) :
    passed.length = args.length ∧
    (∀ (i : Nat) (v : Val),
      args[i]? = some (Arg.val v) → passed[i]? = some v) ∧
    (∀ (i : Nat), args[i]? = some Arg.nil →
      ∃ t, cb.callBack.typ.In i = some t ∧
        passed[i]? = some (zeroVal t)) := by
  obtain ⟨hlen, hget⟩ :=
    setUpPublishAux_some_spec cb.callBack.typ args 0 passed hsp
  refine ⟨hlen, fun i v hv => (hget i).1 v hv, fun i hv => ?_⟩
  obtain ⟨t, ht, hp⟩ := (hget i).2 hv
  exact ⟨t, by simpa using ht, hp⟩

/-- Witness for C8 at a concrete input: a two-parameter callable receiving a
concrete first argument and a nil second argument gets the first value
unchanged and the zero value of the second parameter's type. -/
theorem C8_setUpPublish_positional_witness :
    setUpPublish ⟨fTwo⟩ [Arg.val ⟨tInt, 7⟩, Arg.nil] =
      some [⟨tInt, 7⟩, ⟨tStr, 0⟩] ∧
    ([⟨tInt, 7⟩, ⟨tStr, 0⟩] : List Val)[0]? = some ⟨tInt, 7⟩ ∧
    (∃ t, fTwo.typ.In 1 = some t ∧
      ([⟨tInt, 7⟩, ⟨tStr, 0⟩] : List Val)[1]? = some (zeroVal t)) := by
  refine ⟨rfl, ?_, ?_⟩
  · exact (C8_setUpPublish_positional ⟨fTwo⟩ [Arg.val ⟨tInt, 7⟩, Arg.nil]
      [⟨tInt, 7⟩, ⟨tStr, 0⟩] rfl).2.1 0 ⟨tInt, 7⟩ rfl
  · exact (C8_setUpPublish_positional ⟨fTwo⟩ [Arg.val ⟨tInt, 7⟩, Arg.nil]
      [⟨tInt, 7⟩, ⟨tStr, 0⟩] rfl).2.2 1 rfl

/-- C9: on a single-handler topic, when the reply invocation task faults
(its recovered panic drops the reply, so nothing is ever sent on the
completion channel), the caller observes exactly the timeout error for
every scheduling outcome — the fault never propagates as a panic and is
never returned as an error value — and this observation is identical to the
one for a healthy handler that is still running when the timer fires, so
the caller cannot distinguish the two. -/
theorem C9_reply_fault_logged_only (bus : EventBus) (T : String)
    (h : eventHandler) (args : List Arg) (fast : Bool)
    (hlook : mapLookup bus.handlers T = some [h]) :
    (replyTask h args = none →
      PublishWithReply bus T fast args =
        ⟨none, some (.timeout T), [(h, args)]⟩) ∧
    (∀ rs, replyTask h args = some rs →
      PublishWithReply bus T false args =
        ⟨none, some (.timeout T), [(h, args)]⟩) := by
  constructor
  · intro ht
    cases fast <;> simp [PublishWithReply, hlook, ht]
  · intro rs ht
    simp [PublishWithReply, hlook, ht]

/-- Witness for C9 at concrete inputs: a panicking handler yields the
timeout error even when scheduling is fast, and a healthy handler losing
the race yields the same observation. -/
theorem C9_reply_fault_logged_only_witness :
    replyTask ⟨fBoom⟩ [Arg.val ⟨tInt, 1⟩] = none ∧
    PublishWithReply busBoom "boom" true [Arg.val ⟨tInt, 1⟩] =
      ⟨none, some (.timeout "boom"), [(⟨fBoom⟩, [Arg.val ⟨tInt, 1⟩])]⟩ ∧
    PublishWithReply busA "calc" false [Arg.val ⟨tInt, 1⟩] =
      ⟨none, some (.timeout "calc"), [(⟨fAdd1⟩, [Arg.val ⟨tInt, 1⟩])]⟩ := by
  refine ⟨rfl, ?_, ?_⟩
  · exact (C9_reply_fault_logged_only busBoom "boom" ⟨fBoom⟩
      [Arg.val ⟨tInt, 1⟩] true rfl).1 rfl
  · exact (C9_reply_fault_logged_only busA "calc" ⟨fAdd1⟩
      [Arg.val ⟨tInt, 1⟩] false rfl).2 [⟨tInt, 2⟩] rfl

/-- C10: `setUpPublish` fails (models the panic of looking up the declared
type of parameter `i`) exactly when some supplied nil argument sits at a
position at or beyond the callable's declared parameter count; in that case
the invocation task ends with no reply for every possible handler body — the
handler entry point is never called — and when no nil argument is out of
range `setUpPublish` returns normally. -/
theorem C10_setUpPublish_totality (cb : eventHandler) (args : List Arg) :
    (setUpPublish cb args = none ↔
      ∃ i, args[i]? = some Arg.nil ∧
        cb.callBack.typ.params.length ≤ i) ∧
    (setUpPublish cb args = none →
      ∀ b, replyTask ⟨⟨cb.callBack.typ, cb.callBack.ptr, b⟩⟩ args = none) := by
  constructor
  · simpa using setUpPublishAux_eq_none cb.callBack.typ args 0
  · intro hn b
    have hsp : setUpPublish ⟨⟨cb.callBack.typ, cb.callBack.ptr, b⟩⟩ args =
        none := hn
    simp [replyTask, hsp]

/-- Witness for C10 at a concrete input: a one-parameter handler given a
value and then a nil at position 1 faults in argument preparation, and the
reply task yields nothing even for a body that would reply. -/
theorem C10_setUpPublish_totality_witness :
    setUpPublish ⟨fAdd1⟩ [Arg.val ⟨tInt, 5⟩, Arg.nil] = none ∧
    replyTask ⟨⟨fAdd1.typ, fAdd1.ptr, fun _ => .ok [⟨tInt, 0⟩]⟩⟩
      [Arg.val ⟨tInt, 5⟩, Arg.nil] = none := by
  constructor
  · exact (C10_setUpPublish_totality ⟨fAdd1⟩
      [Arg.val ⟨tInt, 5⟩, Arg.nil]).1.mpr ⟨1, rfl, by decide⟩
  · exact (C10_setUpPublish_totality ⟨fAdd1⟩
      [Arg.val ⟨tInt, 5⟩, Arg.nil]).2 rfl (fun _ => .ok [⟨tInt, 0⟩])

end eventbus
